import Mathlib

/-!
Verification of the pdf-tools server (`src/index.ts`) against its
natural-language specification.

The development shallowly embeds the three tool handlers
(`remove-pdf-pages`, `add-text-watermark`, `merge-pdfs`) over:
  * an explicit file-system state `FS : String → Option (List Nat)`
    mapping a path to the raw bytes stored on disk;
  * a model of Node.js base64 file I/O: `fs.readFileSync(p, base64)`
    base64-ENCODES the raw on-disk bytes into a string, and
    `fs.writeFileSync(p, s, base64)` base64-DECODES the string back into
    raw bytes before writing;
  * an abstract model of the external pdf-lib library: documents are lists
    of pages, each page carrying its size and the list of texts drawn on
    it; parsing/serialization of the binary PDF format (owned by pdf-lib,
    a non-goal of the specification) is modelled by an executable
    injective codec `PDFDoc.save` / `parsePdf`.

Handlers are pure functions `FS → args → ToolResult × FS`; the `catch`
block of each handler is modelled with `Except String`.
-/

/-! ### Base64 (models Node.js `Buffer` base64 encoding/decoding) -/

/-- The standard base64 alphabet, as used by Node.js `Buffer`. -/
def b64Alphabet : List Char :=
  "ABCDEFGHIJKLMNOPQRSTUVWXYZabcdefghijklmnopqrstuvwxyz0123456789+/".data

/-- The base64 digit for a sextet value (`'='` is returned out of range,
which never happens on values below 64). -/
def b64Char (n : Nat) : Char := b64Alphabet.getD n '='

/-- The sextet value of a base64 digit (the list length, 64, out of
alphabet). -/
def b64val (c : Char) : Nat := b64Alphabet.indexOf c

/-- Standard base64 encoding of a byte sequence, with `'='` padding, as
produced by Node.js `Buffer.toString('base64')` and by
`fs.readFileSync(path, base64)`. -/
def b64encode : List Nat → List Char
  | [] => []
  | [a] => [b64Char (a / 4), b64Char (a % 4 * 16), '=', '=']
  | [a, b] => [b64Char (a / 4), b64Char (a % 4 * 16 + b / 16), b64Char (b % 16 * 4), '=']
  | a :: b :: c :: rest =>
      b64Char (a / 4) :: b64Char (a % 4 * 16 + b / 16) ::
      b64Char (b % 16 * 4 + c / 64) :: b64Char (c % 64) :: b64encode rest

/-- Standard base64 decoding of a character sequence back to bytes, as
performed by Node.js when writing a string with
`fs.writeFileSync(path, s, base64)` and by pdf-lib when loading from a
base64 string. Total (lenient on malformed input); exact on well-formed
base64. -/
def b64decode : List Char → List Nat
  | c1 :: c2 :: c3 :: c4 :: rest =>
      if c3 = '=' then
        [b64val c1 * 4 + b64val c2 / 16]
      else if c4 = '=' then
        [b64val c1 * 4 + b64val c2 / 16, b64val c2 % 16 * 16 + b64val c3 / 4]
      else
        (b64val c1 * 4 + b64val c2 / 16) :: (b64val c2 % 16 * 16 + b64val c3 / 4) ::
        (b64val c3 % 4 * 64 + b64val c4) :: b64decode rest
  | _ => []

/-! ### Abstract model of pdf-lib documents

The binary PDF format is owned by the external pdf-lib library (a declared
non-goal of the specification), so it is modelled abstractly: a document is
a list of pages; a page records its size and the texts drawn on it.
`PDFDoc.save` / `parsePdf` are an executable injective byte codec standing
in for pdf-lib serialization and parsing. -/

/-- A text drawn on a page, with the options passed to pdf-lib
`page.drawText` (coordinates, font size, rgb color, opacity, rotation in
degrees). Numbers are modelled as rationals. -/
structure DrawnText where
  text : String
  x : ℚ
  y : ℚ
  size : ℚ
  colorR : ℚ
  colorG : ℚ
  colorB : ℚ
  opacity : ℚ
  rotate : ℚ

deriving DecidableEq, Repr

/-- A PDF page: its size (`page.getSize()`) and drawn content. -/
structure Page where
  width : ℚ
  height : ℚ
  drawn : List DrawnText

deriving DecidableEq, Repr

/-- A PDF document: an ordered list of pages. -/
structure PDFDoc where
  pages : List Page

deriving DecidableEq, Repr

/-- Models pdf-lib `PDFDocument.getPageCount()`. -/
def PDFDoc.getPageCount (d : PDFDoc) : Nat := d.pages.length

/-- Models pdf-lib `PDFDocument.create()`: a fresh empty document. -/
def PDFDocument_create : PDFDoc := ⟨[]⟩

/-! #### Byte codec (stands in for pdf-lib save/parse of the binary format) -/

/-- Little-endian base-255 digits, fuel-based so that the kernel can
evaluate it (the fuel in `natBytes` always suffices). -/
def natBytesAux : Nat → Nat → List Nat
  | 0, _ => []
  | fuel + 1, n => if n < 255 then [n] else n % 255 :: natBytesAux fuel (n / 255)

/-- Little-endian base-255 digits of a natural number (each digit below
255, so the value 255 is free to serve as a terminator). -/
def natBytes (n : Nat) : List Nat := natBytesAux (n + 1) n

/-- Self-delimiting encoding of a natural number: base-255 digits
terminated by 255. -/
def encNat (n : Nat) : List Nat := natBytes n ++ [255]

/-- Self-delimiting encoding of an integer: a sign byte then the
magnitude. -/
def encInt (i : Int) : List Nat := (if i < 0 then 1 else 0) :: encNat i.natAbs

/-- Encoding of a rational: numerator then denominator. -/
def encQ (q : ℚ) : List Nat := encInt q.num ++ encNat q.den

/-- Encoding of a string: length then each character's code point. -/
def encString (s : String) : List Nat :=
  encNat s.length ++ (s.data.map (fun c => encNat c.toNat)).flatten

/-- Encoding of a list: length then each element. -/
def encList (enc : α → List Nat) (l : List α) : List Nat :=
  encNat l.length ++ (l.map enc).flatten

/-- Encoding of one drawn text. -/
def encDrawnText (t : DrawnText) : List Nat :=
  encString t.text ++ encQ t.x ++ encQ t.y ++ encQ t.size ++
  encQ t.colorR ++ encQ t.colorG ++ encQ t.colorB ++ encQ t.opacity ++ encQ t.rotate

/-- Encoding of one page. -/
def encPage (p : Page) : List Nat :=
  encQ p.width ++ encQ p.height ++ encList encDrawnText p.drawn

/-- Models pdf-lib `PDFDocument.save()`: serialize a document to raw PDF
bytes. The byte stream opens with the `%PDF` magic (37, 80, 68, 70)
followed by the encoded page list. -/
def PDFDoc.save (d : PDFDoc) : List Nat :=
  37 :: 80 :: 68 :: 70 :: encList encPage d.pages

/-- Consume a self-delimiting natural number (base-255 digits terminated
by 255) from the front of a byte stream. -/
def parseNatAux : List Nat → Option (Nat × List Nat)
  | [] => none
  | b :: rest =>
    if b = 255 then some (0, rest)
    else
      match parseNatAux rest with
      | some (m, rest2) => some (b + 255 * m, rest2)
      | none => none

/-- Consume an integer: a sign byte then a magnitude. -/
def parseIntAux (bs : List Nat) : Option (Int × List Nat) :=
  match bs with
  | [] => none
  | s :: rest =>
    match parseNatAux rest with
    | some (m, rest2) => some (if s = 1 then -(m : Int) else (m : Int), rest2)
    | none => none

/-- Consume a rational: numerator then denominator. -/
def parseQ (bs : List Nat) : Option (ℚ × List Nat) :=
  match parseIntAux bs with
  | some (num, r1) =>
    match parseNatAux r1 with
    | some (den, r2) => some ((num : ℚ) / (den : ℚ), r2)
    | none => none
  | none => none

/-- Consume `n` character code points. -/
def parseChars : Nat → List Nat → Option (List Char × List Nat)
  | 0, bs => some ([], bs)
  | n + 1, bs =>
    match parseNatAux bs with
    | some (c, r1) =>
      match parseChars n r1 with
      | some (cs, r2) => some (Char.ofNat c :: cs, r2)
      | none => none
    | none => none

/-- Consume a string: a length then that many code points. -/
def parseString (bs : List Nat) : Option (String × List Nat) :=
  match parseNatAux bs with
  | some (n, r1) =>
    match parseChars n r1 with
    | some (cs, r2) => some (String.mk cs, r2)
    | none => none
  | none => none

/-- Consume `n` elements with the given element reader. -/
def parseListN (p : List Nat → Option (α × List Nat)) :
    Nat → List Nat → Option (List α × List Nat)
  | 0, bs => some ([], bs)
  | n + 1, bs =>
    match p bs with
    | some (a, r1) =>
      match parseListN p n r1 with
      | some (as, r2) => some (a :: as, r2)
      | none => none
    | none => none

/-- Consume a length-prefixed list. -/
def parseList (p : List Nat → Option (α × List Nat)) (bs : List Nat) :
    Option (List α × List Nat) :=
  match parseNatAux bs with
  | some (n, r1) => parseListN p n r1
  | none => none

/-- Consume one drawn text. -/
def parseDrawnText (bs : List Nat) : Option (DrawnText × List Nat) :=
  match parseString bs with
  | some (text, r1) =>
    match parseQ r1 with
    | some (x, r2) =>
      match parseQ r2 with
      | some (y, r3) =>
        match parseQ r3 with
        | some (size, r4) =>
          match parseQ r4 with
          | some (colorR, r5) =>
            match parseQ r5 with
            | some (colorG, r6) =>
              match parseQ r6 with
              | some (colorB, r7) =>
                match parseQ r7 with
                | some (opacity, r8) =>
                  match parseQ r8 with
                  | some (rotate, r9) =>
                    some (⟨text, x, y, size, colorR, colorG, colorB, opacity, rotate⟩, r9)
                  | none => none
                | none => none
              | none => none
            | none => none
          | none => none
        | none => none
      | none => none
    | none => none
  | none => none

/-- Consume one page. -/
def parsePage (bs : List Nat) : Option (Page × List Nat) :=
  match parseQ bs with
  | some (width, r1) =>
    match parseQ r1 with
    | some (height, r2) =>
      match parseList parseDrawnText r2 with
      | some (drawn, r3) => some (⟨width, height, drawn⟩, r3)
      | none => none
    | none => none
  | none => none

/-- Stands in for pdf-lib parsing of raw PDF bytes: requires the `%PDF`
magic, then a page list consuming the whole stream; `none` models a
pdf-lib parse exception. -/
def parsePdf (bs : List Nat) : Option PDFDoc :=
  match bs with
  | 37 :: 80 :: 68 :: 70 :: rest =>
    match parseList parsePage rest with
    | some (ps, []) => some ⟨ps⟩
    | _ => none
  | _ => none

/-! ### File system and Node.js base64 file I/O -/

/-- The file system: a path maps to the raw bytes stored on disk (or
`none` when no file exists at that path). -/
def FS : Type := String → Option (List Nat)

/-- Models Node.js `fs.readFileSync(path, base64)`: reads the raw
on-disk bytes and returns their base64 ENCODING as a string; `none`
models the ENOENT exception on a missing path. -/
def readFileSyncB64 (fs : FS) (path : String) : Option String :=
  (fs path).map (fun bs => String.mk (b64encode bs))

/-- Models Node.js `fs.writeFileSync(path, data, base64)`: base64-DECODES
the string `data` and writes the resulting raw bytes to `path`. -/
def writeFileSyncB64 (fs : FS) (path : String) (data : String) : FS :=
  fun p => if p = path then some (b64decode data.data) else fs p

/-- Models pdf-lib `PDFDocument.load(data)` on a base64 string argument:
pdf-lib decodes the base64 text to bytes and parses them; `none` models
the parse exception. -/
def PDFDocument_load (pdfData : String) : Option PDFDoc :=
  parsePdf (b64decode pdfData.data)

/-- The document a handler obtains from a path: read the raw bytes,
base64-encode them (`readFileSync`), and load (which decodes again).
This is exactly the composition each handler starts with. -/
def loadDoc (fs : FS) (path : String) : Option PDFDoc :=
  (readFileSyncB64 fs path).bind PDFDocument_load

/-! ### pdf-lib operations used by the handlers -/

/-- Models pdf-lib `PDFDocument.removePage(idx)` at a JS-number index:
`assertRange` accepts only indices inside `[0, pageCount - 1]`, and the
page-tree removal succeeds exactly on integral indices in range (a
fractional or out-of-range index raises, modelled by `none`). -/
def removePage (d : PDFDoc) (idx : ℚ) : Option PDFDoc :=
  if idx.den = 1 ∧ 0 ≤ idx.num ∧ idx.num < (d.pages.length : Int) then
    some ⟨d.pages.eraseIdx idx.num.toNat⟩
  else
    none

/-- The message of the exception raised by a failing
`PDFDocument.removePage` call. -/
def removePageErrMsg : String := "removePage: index out of bounds"

/-- Models pdf-lib copying every page of `src` (via `copyPages` over
`getPageIndices()`) and appending each copy with `addPage`: the copies
land at the end of `dst` in `src`'s original order. -/
def copyAllPages (dst src : PDFDoc) : PDFDoc := ⟨dst.pages ++ src.pages⟩

/-! ### Tool results

Each handler returns a single text payload. The text templates of
`src/index.ts` are injective in their parameters, so each template is
modelled by one constructor carrying exactly those parameters:
  * `validationErrorText invalid total` is the text
    "Error: Invalid page numbers: {invalid}. The document has {total} pages."
  * `processingErrorText msg` is "Error processing PDF: {msg}"
  * `removeSuccessText n` is "Successfully removed {n} pages from the PDF."
  * `watermarkSuccessText` is "Successfully added text watermark to the PDF."
  * `mergeSuccessText n out` is "Successfully merged {n} PDFs into {out}"
  * `mergeErrorText msg` is "Error merging PDFs: {msg}" -/
inductive ToolResult where
  | validationErrorText (invalid : List ℚ) (total : Nat)
  | processingErrorText (msg : String)
  | removeSuccessText (n : Nat)
  | watermarkSuccessText
  | mergeSuccessText (n : Nat) (outputPath : String)
  | mergeErrorText (msg : String)

deriving DecidableEq, Repr

/-- Is the result one of the error texts (a text starting with "Error")? -/
def ToolResult.isError : ToolResult → Bool
  | .validationErrorText _ _ => true
  | .processingErrorText _ => true
  | .mergeErrorText _ => true
  | _ => false

/-- Is the result the validation-error text? -/
def ToolResult.isValidationError : ToolResult → Bool
  | .validationErrorText _ _ => true
  | _ => false

/-! ### The remove-pdf-pages handler -/

/-- The validation filter of the remove-pdf-pages handler:
`pageNumbers.filter(num => num < 1 || num > totalPages)`. -/
def invalidPagesOf (pageNumbers : List ℚ) (totalPages : Nat) : List ℚ :=
  pageNumbers.filter (fun num => decide (num < 1) || decide ((totalPages : ℚ) < num))

/-- Models `[...pageNumbers].sort((a, b) => b - a)`: the page numbers in
descending numeric order. -/
def sortDescRel (a b : ℚ) : Prop := b ≤ a

instance : DecidableRel sortDescRel := fun a b => inferInstanceAs (Decidable (b ≤ a))

/-- The sorted copy of the page-number list (descending). -/
def sortDesc (l : List ℚ) : List ℚ := List.insertionSort sortDescRel l

/-- The removal loop: `for (pageNum of sortedPageNumbers)
pdfDoc.removePage(pageNum - 1)`, propagating the pdf-lib exception. -/
def removePagesLoop (d : PDFDoc) : List ℚ → Except String PDFDoc
  | [] => Except.ok d
  | pageNum :: rest =>
    match removePage d (pageNum - 1) with
    | some d2 => removePagesLoop d2 rest
    | none => Except.error removePageErrMsg

/-- The ENOENT message of a failing `readFileSync`. -/
def enoentMsg (path : String) : String :=
  "ENOENT: no such file or directory, open " ++ path

/-- The message of a failing `PDFDocument.load`. -/
def loadErrMsg : String := "Failed to parse PDF document"

/-- The try-block of the remove-pdf-pages handler: read and load the
document, validate the page numbers (returning the validation-error text
without touching the disk when some are out of range), remove the pages
in descending order, save, and write the result back to the source path.
Thrown exceptions are propagated as `Except.error`. -/
def removePdfPagesTry (fs : FS) (pdfPath : String) (pageNumbers : List ℚ) :
    Except String (ToolResult × FS) :=
  match readFileSyncB64 fs pdfPath with
  | none => Except.error (enoentMsg pdfPath)
  | some pdfData =>
    match PDFDocument_load pdfData with
    | none => Except.error loadErrMsg
    | some pdfDoc =>
      if 0 < (invalidPagesOf pageNumbers pdfDoc.getPageCount).length then
        Except.ok (ToolResult.validationErrorText
          (invalidPagesOf pageNumbers pdfDoc.getPageCount) pdfDoc.getPageCount, fs)
      else
        match removePagesLoop pdfDoc (sortDesc pageNumbers) with
        | Except.error e => Except.error e
        | Except.ok pdfDoc2 =>
          Except.ok (ToolResult.removeSuccessText pageNumbers.length,
            writeFileSyncB64 fs pdfPath (String.mk (b64encode pdfDoc2.save)))

/-- The remove-pdf-pages handler: the try-block with its catch, which
turns any exception into the processing-error text and leaves the file
system unchanged. -/
def removePdfPages (fs : FS) (pdfPath : String) (pageNumbers : List ℚ) :
    ToolResult × FS :=
  match removePdfPagesTry fs pdfPath pageNumbers with
  | Except.ok r => r
  | Except.error msg => (ToolResult.processingErrorText msg, fs)

/-! ### The add-text-watermark handler -/

/-- The enumerated anchor position of the watermark
(`z.enum([...]).default("center")`). -/
inductive WatermarkPosition where
  | center
  | top
  | bottom
  | topLeft
  | topRight
  | bottomLeft
  | bottomRight

deriving DecidableEq, Repr

/-- The fixed font size of the watermark text (`const textSize = 50`). -/
def watermarkTextSize : ℚ := 50

/-- The fixed extra margin (`const padding = 50`). -/
def watermarkPadding : ℚ := 50

/-- The anchor point of the watermark, computed from the page size by the
`switch (position)` statement of the handler. -/
def computeAnchor (position : WatermarkPosition) (width height : ℚ) : ℚ × ℚ :=
  let textSize := watermarkTextSize
  let padding := watermarkPadding
  match position with
  | .center => (width / 2 - 150, height / 2)
  | .top => (width / 2 - 150, height - padding)
  | .bottom => (width / 2 - 150, padding + textSize)
  | .topLeft => (padding, height - padding)
  | .topRight => (width - 300, height - padding)
  | .bottomLeft => (padding, padding + textSize)
  | .bottomRight => (width - 300, padding + textSize)

/-- One iteration of the watermark loop: `page.drawText(watermarkText,
{x, y, size: textSize, font: helveticaFont, color: rgb(1, 0, 0),
opacity: 0.8, rotate: degrees(45)})` at the computed anchor. (The one
Helvetica font instance embedded per document is not observable in the
page model.) -/
def drawWatermark (watermarkText : String) (position : WatermarkPosition)
    (page : Page) : Page :=
  let a := computeAnchor position page.width page.height
  { page with
    drawn := page.drawn ++
      [⟨watermarkText, a.1, a.2, watermarkTextSize, 1, 0, 0, 4/5, 45⟩] }

/-- The try-block of the add-text-watermark handler: read and load the
document, draw the watermark on every page, save, and write the result
back to the source path. -/
def addTextWatermarkTry (fs : FS) (watermarkText : String) (pdfPath : String)
    (position : WatermarkPosition) : Except String (ToolResult × FS) :=
  match readFileSyncB64 fs pdfPath with
  | none => Except.error (enoentMsg pdfPath)
  | some pdfData =>
    match PDFDocument_load pdfData with
    | none => Except.error loadErrMsg
    | some pdfDoc =>
      Except.ok (ToolResult.watermarkSuccessText,
        writeFileSyncB64 fs pdfPath (String.mk (b64encode
          (PDFDoc.save ⟨pdfDoc.pages.map (drawWatermark watermarkText position)⟩))))

/-- The add-text-watermark handler: the try-block with its catch. -/
def addTextWatermark (fs : FS) (watermarkText : String) (pdfPath : String)
    (position : WatermarkPosition) : ToolResult × FS :=
  match addTextWatermarkTry fs watermarkText pdfPath position with
  | Except.ok r => r
  | Except.error msg => (ToolResult.processingErrorText msg, fs)

/-! ### The merge-pdfs handler -/

/-- The merge loop: `for (pdfPath of pdfPaths)` read and load each
document and copy all of its pages onto the accumulating document. -/
def mergeLoop (fs : FS) (mergedPdf : PDFDoc) : List String → Except String PDFDoc
  | [] => Except.ok mergedPdf
  | pdfPath :: rest =>
    match readFileSyncB64 fs pdfPath with
    | none => Except.error (enoentMsg pdfPath)
    | some pdfData =>
      match PDFDocument_load pdfData with
      | none => Except.error loadErrMsg
      | some pdf => mergeLoop fs (copyAllPages mergedPdf pdf) rest

/-- The try-block of the merge-pdfs handler: accumulate all pages of the
inputs, in input-list order, onto a fresh document, save it, and write it
to the output path. -/
def mergePdfsTry (fs : FS) (pdfPaths : List String) (outputPath : String) :
    Except String (ToolResult × FS) :=
  match mergeLoop fs PDFDocument_create pdfPaths with
  | Except.error e => Except.error e
  | Except.ok mergedPdf =>
    Except.ok (ToolResult.mergeSuccessText pdfPaths.length outputPath,
      writeFileSyncB64 fs outputPath (String.mk (b64encode mergedPdf.save)))

/-- The merge-pdfs handler: the try-block with its catch, which turns any
exception into the merge-error text and leaves the file system
unchanged. -/
def mergePdfs (fs : FS) (pdfPaths : List String) (outputPath : String) :
    ToolResult × FS :=
  match mergePdfsTry fs pdfPaths outputPath with
  | Except.ok r => r
  | Except.error msg => (ToolResult.mergeErrorText msg, fs)

instance : IsTotal ℚ sortDescRel := ⟨fun a b => le_total b a⟩

instance : IsTrans ℚ sortDescRel := ⟨fun _ _ _ h1 h2 => le_trans h2 h1⟩

instance : IsAntisymm ℚ sortDescRel := ⟨fun _ _ h1 h2 => le_antisymm h2 h1⟩

deriving instance DecidableEq for Except

/-! ### Concrete sample data for witnesses and counterexamples -/

set_option maxRecDepth 40000

/-- A blank page of width 600 and the given height. -/
def samplePage (h : ℚ) : Page := ⟨600, h, []⟩

/-- A one-page sample document. -/
def sampleDoc1 : PDFDoc := ⟨[samplePage 801]⟩

/-- A two-page sample document. -/
def sampleDoc2 : PDFDoc := ⟨[samplePage 801, samplePage 802]⟩

/-- A three-page sample document. -/
def sampleDoc3 : PDFDoc := ⟨[samplePage 801, samplePage 802, samplePage 803]⟩

/-- A file system holding the three-page document at "a.pdf". -/
def fsA3 : FS := fun p => if p = "a.pdf" then some sampleDoc3.save else none

/-- A file system holding the two-page document at "a.pdf". -/
def fsA2 : FS := fun p => if p = "a.pdf" then some sampleDoc2.save else none

/-- A file system holding one-page documents at "a.pdf" and "b.pdf". -/
def fsAB : FS := fun p =>
  if p = "a.pdf" then some sampleDoc1.save
  else if p = "b.pdf" then some sampleDoc1.save
  else none

/-- The empty file system. -/
def fsEmpty : FS := fun _ => none

/-- The bytes of a text file holding the string (code points, exact for
the ASCII base64 alphabet). -/
def strBytes (s : String) : List Nat := s.data.map Char.toNat

/-- Is the result the merge-error text ("Error merging PDFs: ...")? -/
def ToolResult.isMergeError : ToolResult → Bool
  | .mergeErrorText _ => true
  | _ => false

theorem b64val_b64Char : ∀ n, n < 64 → b64val (b64Char n) = n := by decide

theorem b64Char_ne_pad : ∀ n, n < 64 → b64Char n ≠ '=' := by decide

/-- Base64 round-trips on genuine byte sequences (every entry below 256). -/
theorem b64_roundtrip : ∀ bs : List Nat, (∀ b ∈ bs, b < 256) →
    b64decode (b64encode bs) = bs
  | [], _ => rfl
  | [a], h => by
    have ha : a < 256 := h a (by simp)
    simp only [b64encode, b64decode]
    simp only [if_true]
    rw [b64val_b64Char _ (by omega), b64val_b64Char _ (by omega)]
    simp only [List.cons.injEq, and_true]
    omega
  | [a, b], h => by
    have ha : a < 256 := h a (by simp)
    have hb : b < 256 := h b (by simp)
    simp only [b64encode, b64decode]
    rw [if_neg (b64Char_ne_pad _ (by omega))]
    simp only [if_true]
    rw [b64val_b64Char _ (by omega), b64val_b64Char _ (by omega),
      b64val_b64Char _ (by omega)]
    simp only [List.cons.injEq, and_true]
    omega
  | a :: b :: c :: rest, h => by
    have ha : a < 256 := h a (by simp)
    have hb : b < 256 := h b (by simp)
    have hc : c < 256 := h c (by simp)
    have ih := b64_roundtrip rest (fun x hx => h x (by simp [hx]))
    simp only [b64encode, b64decode]
    rw [if_neg (b64Char_ne_pad _ (by omega)), if_neg (b64Char_ne_pad _ (by omega))]
    rw [b64val_b64Char _ (by omega), b64val_b64Char _ (by omega),
      b64val_b64Char _ (by omega), b64val_b64Char _ (by omega)]
    rw [ih]
    simp only [List.cons.injEq, and_true]
    omega

theorem natBytesAux_lt (fuel : Nat) : ∀ n, ∀ b ∈ natBytesAux fuel n, b < 256 := by
  induction fuel with
  | zero => intro n b hb; simp [natBytesAux] at hb
  | succ fuel ih =>
    intro n b hb
    unfold natBytesAux at hb
    split at hb
    · next h => simp only [List.mem_singleton] at hb; omega
    · next h =>
      simp only [List.mem_cons] at hb
      rcases hb with h1 | h1
      · omega
      · exact ih (n / 255) b h1

theorem natBytes_lt (n : Nat) : ∀ b ∈ natBytes n, b < 256 :=
  natBytesAux_lt (n + 1) n

theorem encNat_lt (n : Nat) : ∀ b ∈ encNat n, b < 256 := by
  intro b hb
  simp only [encNat, List.mem_append, List.mem_singleton] at hb
  rcases hb with h | h
  · exact natBytes_lt n b h
  · omega

theorem encInt_lt (i : Int) : ∀ b ∈ encInt i, b < 256 := by
  intro b hb
  simp only [encInt, List.mem_cons] at hb
  rcases hb with h | h
  · split at h <;> omega
  · exact encNat_lt _ b h

theorem encQ_lt (q : ℚ) : ∀ b ∈ encQ q, b < 256 := by
  intro b hb
  simp only [encQ, List.mem_append] at hb
  rcases hb with h | h
  · exact encInt_lt _ b h
  · exact encNat_lt _ b h

theorem encString_lt (s : String) : ∀ b ∈ encString s, b < 256 := by
  intro b hb
  simp only [encString, List.mem_append, List.mem_flatten, List.mem_map] at hb
  rcases hb with h | ⟨l, ⟨c, _, hl⟩, hbl⟩
  · exact encNat_lt _ b h
  · exact encNat_lt c.toNat b (hl ▸ hbl)

theorem encList_lt (enc : α → List Nat) (l : List α)
    (henc : ∀ a ∈ l, ∀ b ∈ enc a, b < 256) : ∀ b ∈ encList enc l, b < 256 := by
  intro b hb
  simp only [encList, List.mem_append, List.mem_flatten, List.mem_map] at hb
  rcases hb with h | ⟨bs, ⟨a, ha, hbs⟩, hbbs⟩
  · exact encNat_lt _ b h
  · exact henc a ha b (hbs ▸ hbbs)

theorem encDrawnText_lt (t : DrawnText) : ∀ b ∈ encDrawnText t, b < 256 := by
  intro b hb
  simp only [encDrawnText, List.mem_append] at hb
  rcases hb with ((((((((h | h) | h) | h) | h) | h) | h) | h) | h)
  · exact encString_lt _ b h
  all_goals exact encQ_lt _ b h

theorem encPage_lt (p : Page) : ∀ b ∈ encPage p, b < 256 := by
  intro b hb
  simp only [encPage, List.mem_append] at hb
  rcases hb with (h | h) | h
  · exact encQ_lt _ b h
  · exact encQ_lt _ b h
  · exact encList_lt _ _ (fun t _ => encDrawnText_lt t) b h

theorem save_lt (d : PDFDoc) : ∀ b ∈ d.save, b < 256 := by
  intro b hb
  simp only [PDFDoc.save, List.mem_cons] at hb
  rcases hb with h | h | h | h | h
  · omega
  · omega
  · omega
  · omega
  · exact encList_lt _ _ (fun p _ => encPage_lt p) b h

/-! ### Helper lemmas -/

/-- Writing a saved document and reading the path back yields exactly the
raw saved bytes: the base64 encoding applied before the write is undone
by the write's own base64 decoding. -/
theorem writeFileSyncB64_read (fs : FS) (path : String) (d : PDFDoc) :
    writeFileSyncB64 fs path (String.mk (b64encode d.save)) path = some d.save := by
  show (if path = path then some (b64decode (String.mk (b64encode d.save)).data)
    else fs path) = some d.save
  rw [if_pos rfl]
  rw [show (String.mk (b64encode d.save)).data = b64encode d.save from rfl]
  rw [b64_roundtrip d.save (save_lt d)]

/-- A write changes no path other than the one written. -/
theorem writeFileSyncB64_frame (fs : FS) (path p : String) (data : String)
    (h : p ≠ path) : writeFileSyncB64 fs path data p = fs p := if_neg h

/-- Sorting in descending order is insensitive to the input order: lists
that are permutations of one another sort to the same list. -/
theorem sortDesc_eq_of_perm {l1 l2 : List ℚ} (h : l1.Perm l2) :
    sortDesc l1 = sortDesc l2 :=
  List.eq_of_perm_of_sorted
    ((List.perm_insertionSort _ l1).trans (h.trans (List.perm_insertionSort _ l2).symm))
    (List.sorted_insertionSort _ l1) (List.sorted_insertionSort _ l2)

theorem sortDesc_length (l : List ℚ) : (sortDesc l).length = l.length :=
  (List.perm_insertionSort _ l).length_eq

/-- Each iteration of the removal loop removes exactly one page, so a
successful run shrinks the page count by the length of the list. -/
theorem removePagesLoop_length : ∀ (l : List ℚ) (d d2 : PDFDoc),
    removePagesLoop d l = Except.ok d2 → d2.pages.length + l.length = d.pages.length
  | [], d, d2, h => by
    unfold removePagesLoop at h
    injection h with h
    rw [h]
    simp
  | q :: rest, d, d2, h => by
    unfold removePagesLoop at h
    cases hrp : removePage d (q - 1) with
    | none => rw [hrp] at h; cases h
    | some d1 =>
      rw [hrp] at h
      have ih := removePagesLoop_length rest d1 d2 h
      unfold removePage at hrp
      split at hrp
      · next hcond =>
        injection hrp with hrp
        have hlt : (q - 1).num.toNat < d.pages.length := by omega
        have hlen := List.length_eraseIdx_add_one hlt
        rw [← hrp] at ih
        dsimp only at ih
        simp only [List.length_cons]
        omega
      · cases hrp

/-- The validation filter is empty exactly when every requested number is
in range. -/
theorem invalidPagesOf_eq_nil {nums : List ℚ} {t : Nat} :
    invalidPagesOf nums t = [] ↔ ∀ q ∈ nums, 1 ≤ q ∧ q ≤ (t : ℚ) := by
  unfold invalidPagesOf
  rw [List.filter_eq_nil_iff]
  constructor
  · intro h q hq
    have := h q hq
    simp only [Bool.or_eq_true, decide_eq_true_eq, not_or] at this
    exact ⟨le_of_not_lt this.1, le_of_not_lt this.2⟩
  · intro h q hq
    have := h q hq
    simp only [Bool.or_eq_true, decide_eq_true_eq, not_or]
    exact ⟨not_lt.mpr this.1, not_lt.mpr this.2⟩

/-- An integral rational is below 1 exactly when it is nonpositive. -/
theorem rat_lt_one_iff_nonpos {q : ℚ} (h : q.den = 1) : q < 1 ↔ q ≤ 0 := by
  rw [← (Rat.den_eq_one_iff q).mp h]
  constructor
  · intro h1
    have : q.num < 1 := by exact_mod_cast h1
    exact_mod_cast (by omega : q.num ≤ 0)
  · intro h1
    have : q.num ≤ 0 := by exact_mod_cast h1
    exact_mod_cast (by omega : q.num < 1)

/-- Unfolding of the remove-pdf-pages try-block once the document has
been obtained from the path. -/
theorem removePdfPagesTry_eq (fs : FS) (pdfPath : String) (nums : List ℚ)
    (d : PDFDoc) (hload : loadDoc fs pdfPath = some d) :
    removePdfPagesTry fs pdfPath nums =
      if 0 < (invalidPagesOf nums d.getPageCount).length then
        Except.ok (ToolResult.validationErrorText
          (invalidPagesOf nums d.getPageCount) d.getPageCount, fs)
      else
        match removePagesLoop d (sortDesc nums) with
        | Except.error e => Except.error e
        | Except.ok d2 =>
          Except.ok (ToolResult.removeSuccessText nums.length,
            writeFileSyncB64 fs pdfPath (String.mk (b64encode d2.save))) := by
  unfold loadDoc at hload
  cases hs : readFileSyncB64 fs pdfPath with
  | none => rw [hs] at hload; cases hload
  | some s =>
    rw [hs] at hload
    simp only [Option.some_bind] at hload
    simp only [removePdfPagesTry, hs, hload]

/-- The merge loop appends all pages of each successfully loaded input,
in input-list order, after the accumulator's pages. -/
theorem mergeLoop_ok (fs : FS) : ∀ (paths : List String) (docs : List PDFDoc)
    (acc : PDFDoc), paths.map (loadDoc fs) = docs.map some →
    mergeLoop fs acc paths = Except.ok ⟨acc.pages ++ (docs.map PDFDoc.pages).flatten⟩
  | [], docs, acc, h => by
    cases docs with
    | nil => simp [mergeLoop]
    | cons d ds => simp at h
  | p :: ps, docs, acc, h => by
    cases docs with
    | nil => simp at h
    | cons d ds =>
      simp only [List.map_cons, List.cons.injEq] at h
      obtain ⟨h1, h2⟩ := h
      unfold loadDoc at h1
      cases hs : readFileSyncB64 fs p with
      | none => rw [hs] at h1; cases h1
      | some s =>
        rw [hs] at h1
        simp only [Option.some_bind] at h1
        have ih := mergeLoop_ok fs ps ds (copyAllPages acc d) h2
        simp only [mergeLoop, hs, h1, ih]
        simp [copyAllPages]

/-- When some input path does not exist, the merge loop raises. -/
theorem mergeLoop_missing (fs : FS) : ∀ (paths : List String) (acc : PDFDoc),
    (∃ p ∈ paths, fs p = none) →
    ∃ msg, mergeLoop fs acc paths = Except.error msg
  | [], _, h => by simp at h
  | p :: ps, acc, h => by
    cases hs : readFileSyncB64 fs p with
    | none => exact ⟨enoentMsg p, by simp [mergeLoop, hs]⟩
    | some s =>
      obtain ⟨p', hp', hnone⟩ := h
      rcases List.mem_cons.mp hp' with rfl | hmem
      · unfold readFileSyncB64 at hs
        rw [hnone] at hs
        cases hs
      · cases hl : PDFDocument_load s with
        | none => exact ⟨loadErrMsg, by simp [mergeLoop, hs, hl]⟩
        | some d =>
          obtain ⟨msg, hmsg⟩ := mergeLoop_missing fs ps (copyAllPages acc d)
            ⟨p', hmem, hnone⟩
          exact ⟨msg, by simp [mergeLoop, hs, hl, hmsg]⟩

/-- merge-pdfs writes no path other than the output path. -/
theorem mergePdfs_frame (fs : FS) (paths : List String) (out p : String)
    (h : p ≠ out) : (mergePdfs fs paths out).2 p = fs p := by
  unfold mergePdfs mergePdfsTry
  cases hm : mergeLoop fs PDFDocument_create paths with
  | error e => rfl
  | ok m => exact writeFileSyncB64_frame fs out p _ h

/-- A non-raising run of the remove try-block that returns an error text
returned the validation error, with the file system unchanged. -/
theorem removeTry_ok_error_fs (fs : FS) (path : String) (nums : List ℚ)
    (r : ToolResult × FS) (h : removePdfPagesTry fs path nums = Except.ok r)
    (he : r.1.isError = true) : r.2 = fs := by
  unfold removePdfPagesTry at h
  split at h
  · cases h
  · split at h
    · cases h
    · split at h
      · injection h with h
        rw [← h]
      · split at h
        · cases h
        · injection h with h
          rw [← h] at he
          simp [ToolResult.isError] at he

/-- A non-raising run of the watermark try-block returns the success
text. -/
theorem watermarkTry_ok_success (fs : FS) (text path : String)
    (pos : WatermarkPosition) (r : ToolResult × FS)
    (h : addTextWatermarkTry fs text path pos = Except.ok r) :
    r.1 = ToolResult.watermarkSuccessText := by
  unfold addTextWatermarkTry at h
  split at h
  · cases h
  · split at h
    · cases h
    · injection h with h
      rw [← h]

/-- A non-raising run of the merge try-block returns the success text. -/
theorem mergeTry_ok_success (fs : FS) (paths : List String) (out : String)
    (r : ToolResult × FS) (h : mergePdfsTry fs paths out = Except.ok r) :
    r.1 = ToolResult.mergeSuccessText paths.length out := by
  unfold mergePdfsTry at h
  cases h1 : mergeLoop fs PDFDocument_create paths with
  | error e => rw [h1] at h; cases h
  | ok m =>
    rw [h1] at h
    injection h with h
    rw [← h]

/-! ### Claim theorems -/

/-- C1, counterexample. The claim says the on-disk file content after a
successful call equals the base64 TEXT encoding of the produced PDF
bytes. On the two-page document at "a.pdf", removing page 1 succeeds and
leaves on disk exactly the RAW saved bytes of the one-page result — not
the bytes of their base64 text encoding. -/
theorem claim_C1_counterexample :
    (removePdfPages fsA2 "a.pdf" [(1 : ℚ)]).1 = ToolResult.removeSuccessText 1 ∧
    (removePdfPages fsA2 "a.pdf" [(1 : ℚ)]).2 "a.pdf" =
      some (PDFDoc.save ⟨[samplePage 802]⟩) ∧
    (removePdfPages fsA2 "a.pdf" [(1 : ℚ)]).2 "a.pdf" ≠
      some (strBytes (String.mk (b64encode (PDFDoc.save ⟨[samplePage 802]⟩)))) := by
  with_unfolding_all decide

/-- C1, amended: for every operation, the PDF bytes are persisted on disk
as RAW binary. Each call reads the raw on-disk bytes, base64-encodes them
(`readFileSync(.., base64)`) and the library decodes that encoding back
before parsing; each successful call writes the base64 encoding of the
transformed bytes with `writeFileSync(.., base64)`, whose own decoding
leaves exactly the raw transformed byte sequence on disk. -/
theorem claim_C1_amended :
    (∀ (fs : FS) (path : String) (nums : List ℚ) (d d2 : PDFDoc),
      loadDoc fs path = some d →
      invalidPagesOf nums d.getPageCount = [] →
      removePagesLoop d (sortDesc nums) = Except.ok d2 →
      removePdfPages fs path nums =
        (ToolResult.removeSuccessText nums.length,
          writeFileSyncB64 fs path (String.mk (b64encode d2.save))) ∧
      (removePdfPages fs path nums).2 path = some d2.save) ∧
    (∀ (fs : FS) (text path : String) (pos : WatermarkPosition) (d : PDFDoc),
      loadDoc fs path = some d →
      addTextWatermark fs text path pos =
        (ToolResult.watermarkSuccessText,
          writeFileSyncB64 fs path (String.mk (b64encode
            (PDFDoc.save ⟨d.pages.map (drawWatermark text pos)⟩)))) ∧
      (addTextWatermark fs text path pos).2 path =
        some (PDFDoc.save ⟨d.pages.map (drawWatermark text pos)⟩)) ∧
    (∀ (fs : FS) (paths : List String) (out : String) (docs : List PDFDoc),
      paths.map (loadDoc fs) = docs.map some →
      mergePdfs fs paths out =
        (ToolResult.mergeSuccessText paths.length out,
          writeFileSyncB64 fs out (String.mk (b64encode
            (PDFDoc.save ⟨(docs.map PDFDoc.pages).flatten⟩)))) ∧
      (mergePdfs fs paths out).2 out =
        some (PDFDoc.save ⟨(docs.map PDFDoc.pages).flatten⟩)) := by
  refine ⟨?_, ?_, ?_⟩
  · intro fs path nums d d2 hload hinv hloop
    have htry := removePdfPagesTry_eq fs path nums d hload
    rw [hinv] at htry
    simp only [List.length_nil, lt_self_iff_false, if_false, hloop] at htry
    have hres : removePdfPages fs path nums =
        (ToolResult.removeSuccessText nums.length,
          writeFileSyncB64 fs path (String.mk (b64encode d2.save))) := by
      simp only [removePdfPages, htry]
    exact ⟨hres, by rw [hres]; exact writeFileSyncB64_read fs path d2⟩
  · intro fs text path pos d hload
    unfold loadDoc at hload
    cases hs : readFileSyncB64 fs path with
    | none => rw [hs] at hload; cases hload
    | some s =>
      rw [hs] at hload
      simp only [Option.some_bind] at hload
      have htry : addTextWatermarkTry fs text path pos =
          Except.ok (ToolResult.watermarkSuccessText,
            writeFileSyncB64 fs path (String.mk (b64encode
              (PDFDoc.save ⟨d.pages.map (drawWatermark text pos)⟩)))) := by
        simp only [addTextWatermarkTry, hs, hload]
      have hres : addTextWatermark fs text path pos =
          (ToolResult.watermarkSuccessText,
            writeFileSyncB64 fs path (String.mk (b64encode
              (PDFDoc.save ⟨d.pages.map (drawWatermark text pos)⟩)))) := by
        simp only [addTextWatermark, htry]
      exact ⟨hres, by rw [hres]; exact writeFileSyncB64_read fs path _⟩
  · intro fs paths out docs hmap
    have hloop := mergeLoop_ok fs paths docs PDFDocument_create hmap
    have hloop2 : mergeLoop fs PDFDocument_create paths =
        Except.ok ⟨(docs.map PDFDoc.pages).flatten⟩ := by
      rw [hloop]
      simp [PDFDocument_create]
    have htry : mergePdfsTry fs paths out =
        Except.ok (ToolResult.mergeSuccessText paths.length out,
          writeFileSyncB64 fs out (String.mk (b64encode
            (PDFDoc.save ⟨(docs.map PDFDoc.pages).flatten⟩)))) := by
      simp only [mergePdfsTry, hloop2]
    have hres : mergePdfs fs paths out =
        (ToolResult.mergeSuccessText paths.length out,
          writeFileSyncB64 fs out (String.mk (b64encode
            (PDFDoc.save ⟨(docs.map PDFDoc.pages).flatten⟩)))) := by
      simp only [mergePdfs, htry]
    exact ⟨hres, by rw [hres]; exact writeFileSyncB64_read fs out _⟩

/-- C1, witness: the amended claim at the concrete two-page document
(remove conjunct, removing page 1). -/
theorem claim_C1_witness :
    removePdfPages fsA2 "a.pdf" [(1 : ℚ)] =
      (ToolResult.removeSuccessText 1,
        writeFileSyncB64 fsA2 "a.pdf"
          (String.mk (b64encode (PDFDoc.save ⟨[samplePage 802]⟩)))) ∧
    (removePdfPages fsA2 "a.pdf" [(1 : ℚ)]).2 "a.pdf" =
      some (PDFDoc.save ⟨[samplePage 802]⟩) :=
  claim_C1_amended.1 fsA2 "a.pdf" [(1 : ℚ)] sampleDoc2 ⟨[samplePage 802]⟩
    (by with_unfolding_all decide) (by with_unfolding_all decide)
    (by with_unfolding_all decide)

/-- C2, counterexample. The claim predicts the page count drops by the
number of DISTINCT requested pages. Removing `[2, 2]` (duplicates) from
the three-page document succeeds and removes TWO pages (pages 2 and 3
shift under the repeated index), leaving 1 page, not 3 - 1 = 2. -/
theorem claim_C2_counterexample :
    (removePdfPages fsA3 "a.pdf" [(2 : ℚ), 2]).1 = ToolResult.removeSuccessText 2 ∧
    (removePdfPages fsA3 "a.pdf" [(2 : ℚ), 2]).2 "a.pdf" =
      some (PDFDoc.save ⟨[samplePage 801]⟩) ∧
    (PDFDoc.mk [samplePage 801]).getPageCount ≠
      sampleDoc3.getPageCount - ([(2 : ℚ), 2].dedup).length := by
  with_unfolding_all decide

/-- C2, amended: for every document and list of valid page numbers, a
successful remove-pdf-pages call produces a document whose page count
equals the original count minus the NUMBER OF ENTRIES of the list
(each occurrence, duplicates included, removes one page). -/
theorem claim_C2_amended (fs : FS) (path : String) (nums : List ℚ) (d : PDFDoc)
    (hload : loadDoc fs path = some d)
    (hvalid : ∀ q ∈ nums, 1 ≤ q ∧ q ≤ (d.getPageCount : ℚ))
    (hsucc : (removePdfPages fs path nums).1.isError = false) :
    (removePagesLoop d (sortDesc nums)).map PDFDoc.getPageCount =
      Except.ok (d.getPageCount - nums.length) ∧
    nums.length ≤ d.getPageCount := by
  have htry := removePdfPagesTry_eq fs path nums d hload
  have hinv : invalidPagesOf nums d.getPageCount = [] := invalidPagesOf_eq_nil.mpr hvalid
  rw [hinv] at htry
  simp only [List.length_nil, lt_self_iff_false, if_false] at htry
  cases hloop : removePagesLoop d (sortDesc nums) with
  | error e =>
    simp only [hloop] at htry
    unfold removePdfPages at hsucc
    rw [htry] at hsucc
    simp [ToolResult.isError] at hsucc
  | ok d2 =>
    have hlen := removePagesLoop_length (sortDesc nums) d d2 hloop
    rw [sortDesc_length] at hlen
    unfold PDFDoc.getPageCount
    constructor
    · simp only [Except.map]
      simp only [Except.ok.injEq]
      omega
    · omega

/-- C2, witness: the amended claim at the concrete three-page document
with the duplicated list `[2, 2]`. -/
theorem claim_C2_witness :
    (removePagesLoop sampleDoc3 (sortDesc [(2 : ℚ), 2])).map PDFDoc.getPageCount =
      Except.ok (sampleDoc3.getPageCount - [(2 : ℚ), 2].length) ∧
    [(2 : ℚ), 2].length ≤ sampleDoc3.getPageCount :=
  claim_C2_amended fsA3 "a.pdf" [(2 : ℚ), 2] sampleDoc3
    (by with_unfolding_all decide) (by with_unfolding_all decide)
    (by with_unfolding_all decide)

/-- C3: when the (integral) page-number list has an entry at most 0 or
above the page count, the call returns the validation-error text naming
exactly the offending numbers and the true page count, the file system
is untouched, and no removal is attempted. -/
theorem claim_C3 (fs : FS) (path : String) (nums : List ℚ) (d : PDFDoc)
    (hload : loadDoc fs path = some d)
    (hint : ∀ q ∈ nums, q.den = 1)
    (htrig : ∃ q ∈ nums, q ≤ 0 ∨ (d.getPageCount : ℚ) < q) :
    removePdfPages fs path nums =
      (ToolResult.validationErrorText (invalidPagesOf nums d.getPageCount)
        d.getPageCount, fs) ∧
    invalidPagesOf nums d.getPageCount =
      nums.filter (fun q => decide (q ≤ 0) || decide ((d.getPageCount : ℚ) < q)) := by
  obtain ⟨q, hq, hcase⟩ := htrig
  have hmem : q ∈ invalidPagesOf nums d.getPageCount := by
    unfold invalidPagesOf
    rw [List.mem_filter]
    refine ⟨hq, ?_⟩
    simp only [Bool.or_eq_true, decide_eq_true_eq]
    rcases hcase with h | h
    · exact Or.inl (lt_of_le_of_lt h one_pos)
    · exact Or.inr h
  have hpos : 0 < (invalidPagesOf nums d.getPageCount).length :=
    List.length_pos.mpr (List.ne_nil_of_mem hmem)
  have htry := removePdfPagesTry_eq fs path nums d hload
  rw [if_pos hpos] at htry
  refine ⟨by simp only [removePdfPages, htry], ?_⟩
  unfold invalidPagesOf
  apply List.filter_congr
  intro x hx
  have hiff := rat_lt_one_iff_nonpos (hint x hx)
  by_cases h1 : x ≤ 0
  · simp [h1, hiff.mpr h1]
  · have h2 : ¬x < 1 := fun hlt => h1 (hiff.mp hlt)
    simp [h1, h2]

/-- C3, witness: requesting pages 0 and 5 of the three-page document. -/
theorem claim_C3_witness :
    removePdfPages fsA3 "a.pdf" [(0 : ℚ), 5] =
      (ToolResult.validationErrorText
        (invalidPagesOf [(0 : ℚ), 5] sampleDoc3.getPageCount)
        sampleDoc3.getPageCount, fsA3) ∧
    invalidPagesOf [(0 : ℚ), 5] sampleDoc3.getPageCount =
      [(0 : ℚ), 5].filter (fun q =>
        decide (q ≤ 0) || decide ((sampleDoc3.getPageCount : ℚ) < q)) :=
  claim_C3 fsA3 "a.pdf" [(0 : ℚ), 5] sampleDoc3
    (by with_unfolding_all decide) (by with_unfolding_all decide)
    (by with_unfolding_all decide)

/-- C4: the page sequence of a merged document is the concatenation, in
input-list order, of each input document's full page sequence; in
particular the output page count is the sum of the input page counts
(a + b for two documents, with the first document's pages first). -/
theorem claim_C4 (fs : FS) (paths : List String) (out : String)
    (docs : List PDFDoc) (hmap : paths.map (loadDoc fs) = docs.map some) :
    (mergePdfs fs paths out).1 = ToolResult.mergeSuccessText paths.length out ∧
    (mergePdfs fs paths out).2 out =
      some (PDFDoc.save ⟨(docs.map PDFDoc.pages).flatten⟩) ∧
    (PDFDoc.mk ((docs.map PDFDoc.pages).flatten)).getPageCount =
      (docs.map PDFDoc.getPageCount).sum := by
  have hloop := mergeLoop_ok fs paths docs PDFDocument_create hmap
  have hloop2 : mergeLoop fs PDFDocument_create paths =
      Except.ok ⟨(docs.map PDFDoc.pages).flatten⟩ := by
    rw [hloop]
    simp [PDFDocument_create]
  have htry : mergePdfsTry fs paths out =
      Except.ok (ToolResult.mergeSuccessText paths.length out,
        writeFileSyncB64 fs out (String.mk (b64encode
          (PDFDoc.save ⟨(docs.map PDFDoc.pages).flatten⟩)))) := by
    simp only [mergePdfsTry, hloop2]
  have hres : mergePdfs fs paths out =
      (ToolResult.mergeSuccessText paths.length out,
        writeFileSyncB64 fs out (String.mk (b64encode
          (PDFDoc.save ⟨(docs.map PDFDoc.pages).flatten⟩)))) := by
    simp only [mergePdfs, htry]
  refine ⟨by rw [hres], by rw [hres]; exact writeFileSyncB64_read fs out _, ?_⟩
  simp only [PDFDoc.getPageCount, List.length_flatten, List.map_map]
  congr 1

/-- C4, witness: merging the two one-page sample documents writes a
two-page document whose pages are the first input's pages followed by
the second's. -/
theorem claim_C4_witness :
    (mergePdfs fsAB ["a.pdf", "b.pdf"] "out.pdf").1 =
      ToolResult.mergeSuccessText ["a.pdf", "b.pdf"].length "out.pdf" ∧
    (mergePdfs fsAB ["a.pdf", "b.pdf"] "out.pdf").2 "out.pdf" =
      some (PDFDoc.save ⟨([sampleDoc1, sampleDoc1].map PDFDoc.pages).flatten⟩) ∧
    (PDFDoc.mk (([sampleDoc1, sampleDoc1].map PDFDoc.pages).flatten)).getPageCount =
      ([sampleDoc1, sampleDoc1].map PDFDoc.getPageCount).sum :=
  claim_C4 fsAB ["a.pdf", "b.pdf"] "out.pdf" [sampleDoc1, sampleDoc1]
    (by with_unfolding_all decide)

/-- C5: whenever a call returns an error text (validation or processing),
the file system is left exactly as it was: the disk write happens only
after the whole in-memory transform has succeeded. -/
theorem claim_C5 :
    (∀ (fs : FS) (path : String) (nums : List ℚ),
      (removePdfPages fs path nums).1.isError = true →
      (removePdfPages fs path nums).2 = fs) ∧
    (∀ (fs : FS) (text path : String) (pos : WatermarkPosition),
      (addTextWatermark fs text path pos).1.isError = true →
      (addTextWatermark fs text path pos).2 = fs) ∧
    (∀ (fs : FS) (paths : List String) (out : String),
      (mergePdfs fs paths out).1.isError = true →
      (mergePdfs fs paths out).2 = fs) := by
  refine ⟨?_, ?_, ?_⟩
  · intro fs path nums he
    unfold removePdfPages at he ⊢
    cases htry : removePdfPagesTry fs path nums with
    | error e => simp only [htry]
    | ok r =>
      simp only [htry] at he ⊢
      exact removeTry_ok_error_fs fs path nums r htry he
  · intro fs text path pos he
    unfold addTextWatermark at he ⊢
    cases htry : addTextWatermarkTry fs text path pos with
    | error e => simp only [htry]
    | ok r =>
      simp only [htry] at he ⊢
      rw [watermarkTry_ok_success fs text path pos r htry] at he
      simp [ToolResult.isError] at he
  · intro fs paths out he
    unfold mergePdfs at he ⊢
    cases htry : mergePdfsTry fs paths out with
    | error e => simp only [htry]
    | ok r =>
      simp only [htry] at he ⊢
      rw [mergeTry_ok_success fs paths out r htry] at he
      simp [ToolResult.isError] at he

/-- C5, witness: removing pages of a missing file yields an error text
and leaves the (empty) file system untouched. -/
theorem claim_C5_witness :
    (removePdfPages fsEmpty "x.pdf" [(1 : ℚ)]).1.isError = true ∧
    (removePdfPages fsEmpty "x.pdf" [(1 : ℚ)]).2 = fsEmpty :=
  ⟨by with_unfolding_all decide,
    claim_C5.1 fsEmpty "x.pdf" [(1 : ℚ)] (by with_unfolding_all decide)⟩

/-- C6, counterexample. The claim says merge-pdfs never overwrites an
input, including when the caller supplies an output path equal to an
input path. Merging "a.pdf" and "b.pdf" INTO "a.pdf" succeeds and
replaces the input "a.pdf" with the merged two-page document. -/
theorem claim_C6_counterexample :
    (mergePdfs fsAB ["a.pdf", "b.pdf"] "a.pdf").1 =
      ToolResult.mergeSuccessText 2 "a.pdf" ∧
    (mergePdfs fsAB ["a.pdf", "b.pdf"] "a.pdf").2 "a.pdf" =
      some (PDFDoc.save ⟨[samplePage 801, samplePage 801]⟩) ∧
    (mergePdfs fsAB ["a.pdf", "b.pdf"] "a.pdf").2 "a.pdf" ≠ fsAB "a.pdf" := by
  with_unfolding_all decide

/-- C6, amended: merge-pdfs writes only the output path, so when the
caller supplies an output path distinct from every input path, no input
file is overwritten; the code performs no check, so an output path equal
to an input path does overwrite that input. -/
theorem claim_C6_amended (fs : FS) (paths : List String) (out : String)
    (hout : out ∉ paths) :
    ∀ p ∈ paths, (mergePdfs fs paths out).2 p = fs p := by
  intro p hp
  exact mergePdfs_frame fs paths out p (fun h => hout (h ▸ hp))

/-- C6, witness: with the distinct output path "out.pdf" the input
"a.pdf" keeps its bytes. -/
theorem claim_C6_witness :
    (mergePdfs fsAB ["a.pdf", "b.pdf"] "out.pdf").2 "a.pdf" = fsAB "a.pdf" :=
  claim_C6_amended fsAB ["a.pdf", "b.pdf"] "out.pdf" (by decide) "a.pdf" (by decide)

/-- C7, counterexample. The claim says an empty input list yields a
processing error and no output file. Merging the empty list over the
empty file system SUCCEEDS ("Successfully merged 0 PDFs into out.pdf")
and CREATES the output file, holding the saved empty document. -/
theorem claim_C7_counterexample :
    (mergePdfs fsEmpty [] "out.pdf").1 = ToolResult.mergeSuccessText 0 "out.pdf" ∧
    (mergePdfs fsEmpty [] "out.pdf").1.isError = false ∧
    fsEmpty "out.pdf" = none ∧
    (mergePdfs fsEmpty [] "out.pdf").2 "out.pdf" =
      some (PDFDoc.save PDFDocument_create) := by
  with_unfolding_all decide

/-- C7, amended: a merge-pdfs call whose list contains a path that does
not exist returns the merge-error text and leaves every file unchanged;
a call with an EMPTY list instead succeeds and writes the saved empty
document to the output path. -/
theorem claim_C7_amended :
    (∀ (fs : FS) (paths : List String) (out : String),
      (∃ p ∈ paths, fs p = none) →
      (mergePdfs fs paths out).1.isMergeError = true ∧
      (mergePdfs fs paths out).2 = fs) ∧
    (∀ (fs : FS) (out : String),
      mergePdfs fs [] out = (ToolResult.mergeSuccessText 0 out,
        writeFileSyncB64 fs out (String.mk (b64encode
          (PDFDoc.save PDFDocument_create)))) ∧
      (mergePdfs fs [] out).2 out = some (PDFDoc.save PDFDocument_create)) := by
  constructor
  · intro fs paths out hmiss
    obtain ⟨msg, hmsg⟩ := mergeLoop_missing fs paths PDFDocument_create hmiss
    have htry : mergePdfsTry fs paths out = Except.error msg := by
      simp only [mergePdfsTry, hmsg]
    have hres : mergePdfs fs paths out = (ToolResult.mergeErrorText msg, fs) := by
      simp only [mergePdfs, htry]
    rw [hres]
    exact ⟨rfl, rfl⟩
  · intro fs out
    have htry : mergePdfsTry fs [] out =
        Except.ok (ToolResult.mergeSuccessText 0 out,
          writeFileSyncB64 fs out (String.mk (b64encode
            (PDFDoc.save PDFDocument_create)))) := by
      simp only [mergePdfsTry, mergeLoop, List.length_nil]
    have hres : mergePdfs fs [] out = (ToolResult.mergeSuccessText 0 out,
        writeFileSyncB64 fs out (String.mk (b64encode
          (PDFDoc.save PDFDocument_create)))) := by
      simp only [mergePdfs, htry]
    refine ⟨hres, ?_⟩
    rw [hres]
    exact writeFileSyncB64_read fs out _

/-- C7, witness: a list holding the missing path "nope.pdf" over the
sample file system errors and leaves the file system intact. -/
theorem claim_C7_witness :
    (mergePdfs fsA3 ["nope.pdf"] "out.pdf").1.isMergeError = true ∧
    (mergePdfs fsA3 ["nope.pdf"] "out.pdf").2 = fsA3 :=
  claim_C7_amended.1 fsA3 ["nope.pdf"] "out.pdf"
    ⟨"nope.pdf", by decide, by with_unfolding_all decide⟩

/-- C8: two valid page-number lists that are permutations of one another
produce identical remove-pdf-pages results (the handler sorts the list
in descending order before removing, so request order is irrelevant). -/
theorem claim_C8 (fs : FS) (path : String) (nums1 nums2 : List ℚ) (d : PDFDoc)
    (hload : loadDoc fs path = some d)
    (hperm : nums1.Perm nums2)
    (hvalid : ∀ q ∈ nums1, 1 ≤ q ∧ q ≤ (d.getPageCount : ℚ)) :
    removePdfPages fs path nums1 = removePdfPages fs path nums2 := by
  have hvalid2 : ∀ q ∈ nums2, 1 ≤ q ∧ q ≤ (d.getPageCount : ℚ) :=
    fun q hq => hvalid q (hperm.mem_iff.mpr hq)
  have hinv1 : invalidPagesOf nums1 d.getPageCount = [] :=
    invalidPagesOf_eq_nil.mpr hvalid
  have hinv2 : invalidPagesOf nums2 d.getPageCount = [] :=
    invalidPagesOf_eq_nil.mpr hvalid2
  have h1 := removePdfPagesTry_eq fs path nums1 d hload
  have h2 := removePdfPagesTry_eq fs path nums2 d hload
  rw [hinv1] at h1
  rw [hinv2] at h2
  rw [sortDesc_eq_of_perm hperm, hperm.length_eq] at h1
  unfold removePdfPages
  rw [h1, h2]

/-- C8, witness: removing pages `[3, 1]` and `[1, 3]` of the three-page
document gives the same result. -/
theorem claim_C8_witness :
    removePdfPages fsA3 "a.pdf" [(3 : ℚ), 1] =
      removePdfPages fsA3 "a.pdf" [(1 : ℚ), 3] :=
  claim_C8 fsA3 "a.pdf" [(3 : ℚ), 1] [(1 : ℚ), 3] sampleDoc3
    (by with_unfolding_all decide) (by decide) (by with_unfolding_all decide)

/-- C9, counterexample. The claim says corner positions are offset from
the page boundary by the padding (50). For `topRight` on a 600 x 800
page the code anchors at x = width - 300 = 300, not width - 50 = 550. -/
theorem claim_C9_counterexample :
    computeAnchor WatermarkPosition.topRight 600 800 = (300, 750) ∧
    computeAnchor WatermarkPosition.topRight 600 800 ≠
      (600 - watermarkPadding, 800 - watermarkPadding) := by
  with_unfolding_all decide

/-- C9, amended: the watermark anchor is computed from page width/height
with fixed text size 50 and fixed padding 50 as follows — top positions
sit the padding below the top edge; left corners sit the padding from the
left edge; bottom positions sit padding + text size above the bottom
edge; RIGHT corners use the fixed offset 300 from the right edge (not
the padding); horizontally-centered positions use x = width/2 - 150,
half the fixed approximate text width 300; center is vertical middle.
Every page receives exactly one additional drawn text, at the anchor
computed from that page's size, with font size 50. -/
theorem claim_C9_amended : ∀ (w h : ℚ),
    computeAnchor WatermarkPosition.center w h = (w / 2 - 150, h / 2) ∧
    computeAnchor WatermarkPosition.top w h = (w / 2 - 150, h - watermarkPadding) ∧
    computeAnchor WatermarkPosition.bottom w h =
      (w / 2 - 150, watermarkPadding + watermarkTextSize) ∧
    computeAnchor WatermarkPosition.topLeft w h =
      (watermarkPadding, h - watermarkPadding) ∧
    computeAnchor WatermarkPosition.topRight w h = (w - 300, h - watermarkPadding) ∧
    computeAnchor WatermarkPosition.bottomLeft w h =
      (watermarkPadding, watermarkPadding + watermarkTextSize) ∧
    computeAnchor WatermarkPosition.bottomRight w h =
      (w - 300, watermarkPadding + watermarkTextSize) ∧
    (∀ (text : String) (pos : WatermarkPosition) (p : Page),
      (drawWatermark text pos p).drawn = p.drawn ++
        [{ text := text, x := (computeAnchor pos p.width p.height).1,
           y := (computeAnchor pos p.width p.height).2, size := watermarkTextSize,
           colorR := 1, colorG := 0, colorB := 0, opacity := 4/5, rotate := 45 }]) := by
  intro w h
  exact ⟨rfl, rfl, rfl, rfl, rfl, rfl, rfl, fun text pos p => rfl⟩

/-- C9, witness: the amended anchor formulas at the 600 x 800 page, for
the top-right corner. -/
theorem claim_C9_witness :
    computeAnchor WatermarkPosition.topRight 600 800 =
      (600 - 300, 800 - watermarkPadding) :=
  (claim_C9_amended 600 800).2.2.2.2.1

/-- C10: validation rejects exactly the numbers below 1 or above the page
count, so the in-range non-integer 3/2 on the three-page document passes
validation (the filter keeps nothing), is forwarded minus 1 (as 1/2) to
the library's removePage by the removal loop, and the call surfaces as a
processing error — never as a validation error. -/
theorem claim_C10 :
    (∀ (nums : List ℚ) (total : Nat),
      invalidPagesOf nums total = [] ↔ ∀ q ∈ nums, 1 ≤ q ∧ q ≤ (total : ℚ)) ∧
    (∀ (d : PDFDoc) (q : ℚ), removePagesLoop d [q] =
      (removePage d (q - 1)).elim (Except.error removePageErrMsg) Except.ok) ∧
    invalidPagesOf [(3 : ℚ)/2] 3 = [] ∧
    sortDesc [(3 : ℚ)/2] = [(3 : ℚ)/2] ∧
    (3 : ℚ)/2 - 1 = 1/2 ∧
    removePage sampleDoc3 ((3 : ℚ)/2 - 1) = none ∧
    removePdfPages fsA3 "a.pdf" [(3 : ℚ)/2] =
      (ToolResult.processingErrorText removePageErrMsg, fsA3) ∧
    (removePdfPages fsA3 "a.pdf" [(3 : ℚ)/2]).1.isValidationError = false := by
  refine ⟨fun nums total => invalidPagesOf_eq_nil, ?_, ?_, ?_, ?_, ?_, ?_, ?_⟩
  · intro d q
    cases hrp : removePage d (q - 1) with
    | none => simp [removePagesLoop, hrp, Option.elim]
    | some d2 => simp [removePagesLoop, hrp, Option.elim]
  · with_unfolding_all decide
  · with_unfolding_all decide
  · with_unfolding_all decide
  · with_unfolding_all decide
  · with_unfolding_all rfl
  · with_unfolding_all decide

/-- C10, witness: the concrete conjuncts of the claim theorem at the
non-integer input 3/2. -/
theorem claim_C10_witness :
    invalidPagesOf [(3 : ℚ)/2] 3 = [] ∧
    removePdfPages fsA3 "a.pdf" [(3 : ℚ)/2] =
      (ToolResult.processingErrorText removePageErrMsg, fsA3) :=
  ⟨claim_C10.2.2.1, claim_C10.2.2.2.2.2.2.1⟩
